import Mathlib

/-!
Verification of the image thumbnail generation pipeline
(`src/projeto_thumbnails/image_resizer.py`).

Shallow embedding conventions:
* Python strings are modelled as `List Char` (a Python `str` is a sequence
  of code points); `str.startswith` is `List.isPrefixOf`,
  `os.path.basename` keeps the segment after the last `'/'`.
* `urllib.parse.unquote_plus` is modelled for ASCII percent-escapes: each
  `%HH` with two hex digits decodes to the code point `HH`, `'+'` decodes
  to a space, anything else passes through (Python keeps a `'%'` that is
  not followed by two hex digits, identically).
* Pixel buffers are opaque: the `Pix` inductive records exactly which
  Pillow operations produced a buffer, so resampling and re-encoding are
  deterministic functions without asserting anything about pixel values.
* Python float arithmetic in `resize_image` (`ratio = max_width / width`,
  `int(height * ratio)`) is modelled by exact rational arithmetic, whose
  truncation is `height * max_width / width` on `Nat`.
* The two `boto3` S3 calls are recorded in an explicit trace (`S3Call`);
  the bucket contents seen by `get_object` are a parameter
  `store : S3Store`.  A `raise` is an `Except.error` outcome.
-/

/-- Opaque pixel data: a term records the Pillow operations that built the
buffer, making every image transformation a deterministic function. -/
inductive Pix where
  | src (id : Nat)
  | toRGB (p : Pix)
  | lanczos (p : Pix) (w h : Nat)
  | jpegRoundtrip (p : Pix) (q : Nat)
deriving DecidableEq, Repr

/-- A decoded Pillow image: dimensions, color mode and (opaque) pixels. -/
structure PILImage where
  width : Nat
  height : Nat
  mode : String
  pix : Pix
deriving DecidableEq, Repr

/-- `image.convert('RGB')`: same dimensions, mode becomes `"RGB"`. -/
def convertRGB (image : PILImage) : PILImage :=
  { image with mode := "RGB", pix := Pix.toRGB image.pix }

/-- `resize_image` (image_resizer.py lines 17-28): if the image is already
no wider than `max_width` it is returned unchanged; otherwise the width
becomes `max_width` and the height is truncated from the exact
proportional value (LANCZOS resampling recorded in the pixel data). -/
def resize_image (image : PILImage) (max_width : Nat) : PILImage :=
  if image.width ≤ max_width then
    image
  else
    let new_height := image.height * max_width / image.width
    { width := max_width, height := new_height, mode := image.mode,
      pix := Pix.lanczos image.pix max_width new_height }

/-- The statically configured size profiles (image_resizer.py lines 12-15),
in Python dict insertion order. -/
def SIZES : List (String × Nat) := [("small", 300), ("medium", 800)]

/-- Hex digit value, as `urllib.parse` accepts it (both cases). -/
def hexDigit (c : Char) : Option Nat :=
  if '0' ≤ c ∧ c ≤ '9' then some (c.toNat - '0'.toNat)
  else if 'a' ≤ c ∧ c ≤ 'f' then some (c.toNat - 'a'.toNat + 10)
  else if 'A' ≤ c ∧ c ≤ 'F' then some (c.toNat - 'A'.toNat + 10)
  else none

/-- `urllib.parse.unquote_plus` on ASCII input: `'+'` becomes a space,
`%HH` (two hex digits) becomes the code point `HH`, a `'%'` not followed
by two hex digits is kept literally. -/
def unquote_plus : List Char → List Char
  | [] => []
  | '+' :: rest => ' ' :: unquote_plus rest
  | '%' :: a :: b :: rest =>
    match hexDigit a, hexDigit b with
    | some ha, some hb => Char.ofNat (16 * ha + hb) :: unquote_plus rest
    | _, _ => '%' :: unquote_plus (a :: b :: rest)
  | c :: rest => c :: unquote_plus rest

/-- `os.path.basename`: the characters after the last `'/'`. -/
def basename (s : List Char) : List Char :=
  s.foldl (fun acc c => if c = '/' then [] else acc ++ [c]) []

/-- Bytes held by an S3 object, as far as the handler can observe them:
either arbitrary bytes together with what `Image.open` decodes them to
(`none` when Pillow raises), or the output of `image.save(..., 'JPEG',
quality=q)`. -/
inductive S3Body where
  | bytes (decodesTo : Option PILImage)
  | jpegEncoded (img : PILImage) (quality : Nat)
deriving DecidableEq, Repr

/-- `Image.open(BytesIO(data))`, returning `none` when Pillow raises. -/
def imageOpen : S3Body → Option PILImage
  | S3Body.bytes d => d
  | S3Body.jpegEncoded img q =>
    some { width := img.width, height := img.height, mode := "RGB",
           pix := Pix.jpegRoundtrip img.pix q }

/-- The bucket contents visible to `get_object`: `none` means the call
raises (e.g. `NoSuchKey`). -/
def S3Store : Type := String → List Char → Option S3Body

/-- One S3 API call made by the handler. -/
inductive S3Call where
  | get (bucket : String) (key : List Char)
  | put (bucket : String) (key : List Char) (body : S3Body)
      (contentType : String)
deriving DecidableEq, Repr

/-- Errors the handler can re-raise (`raise e`, line 97). -/
inductive PyError where
  | getObjectError (bucket : String) (key : List Char)
  | imageOpenError (bucket : String) (key : List Char)
deriving DecidableEq, Repr

/-- One record of the S3 event, with the key as delivered
(percent-encoded). -/
structure S3Record where
  bucketName : String
  objectKeyRaw : List Char
deriving DecidableEq, Repr

/-- The S3 event payload. -/
structure S3Event where
  records : List S3Record
deriving DecidableEq, Repr

/-- The success response of `lambda_handler` (lines 99-105), with the
JSON body kept structured. -/
structure LambdaResponse where
  statusCode : Nat
  message : String
  processed_files : Nat
deriving DecidableEq, Repr

/-- The body of the loop of `lambda_handler` (lines 34-97) for one record,
generalized over the size-profile list: returns the S3 calls it performs
and, when the `try` block raises, the error. -/
def handleRecordWith (sizes : List (String × Nat)) (store : S3Store)
    (record : S3Record) : List S3Call × Option PyError :=
  let bucket_name := record.bucketName
  let object_key := unquote_plus record.objectKeyRaw
  if ¬ "original/".data.isPrefixOf object_key then
    ([], none)
  else
    match store bucket_name object_key with
    | none => ([S3Call.get bucket_name object_key],
        some (PyError.getObjectError bucket_name object_key))
    | some body =>
      match imageOpen body with
      | none => ([S3Call.get bucket_name object_key],
          some (PyError.imageOpenError bucket_name object_key))
      | some opened =>
        let original_image :=
          if opened.mode ≠ "RGB" then convertRGB opened else opened
        let file_name := basename object_key
        let puts := sizes.map (fun sz =>
          let resized_image := resize_image original_image sz.2
          S3Call.put bucket_name (sz.1.data ++ '/' :: file_name)
            (S3Body.jpegEncoded resized_image 85) "image/jpeg")
        (S3Call.get bucket_name object_key :: puts, none)

/-- One loop iteration as the code runs it, with the configured `SIZES`. -/
def handleRecord (store : S3Store) (record : S3Record) :
    List S3Call × Option PyError :=
  handleRecordWith SIZES store record

/-- The `for record in event['Records']` loop: accumulates S3 calls and
stops at the first re-raised error. -/
def runRecords (store : S3Store) : List S3Record →
    List S3Call × Option PyError
  | [] => ([], none)
  | r :: rs =>
    let step := handleRecord store r
    match step.2 with
    | some e => (step.1, some e)
    | none =>
      let rest := runRecords store rs
      (step.1 ++ rest.1, rest.2)

/-- `lambda_handler` (lines 30-105): runs the loop over all records; if no
iteration raised, returns the 200 response whose `processed_files` is
`len(event['Records'])`. -/
def lambda_handler (store : S3Store) (event : S3Event) :
    List S3Call × Except PyError LambdaResponse :=
  let run := runRecords store event.records
  match run.2 with
  | some e => (run.1, Except.error e)
  | none => (run.1, Except.ok
      { statusCode := 200,
        message := "Imagens redimensionadas com sucesso!",
        processed_files := event.records.length })

/-- C1: with positive dimensions and `width ≤ max_width`, `resize_image`
returns the image unchanged — no upscaling ever occurs. -/
theorem resize_image_noop (image : PILImage) (max_width : Nat)
    (hw : 0 < image.width) (hh : 0 < image.height)
    (h : image.width ≤ max_width) :
    resize_image image max_width = image := by
  simp [resize_image, h]

/-- Witness for C1 at a concrete image. -/
theorem resize_image_noop_witness :
    resize_image ⟨100, 50, "RGB", Pix.src 0⟩ 300 = ⟨100, 50, "RGB", Pix.src 0⟩ :=
  resize_image_noop ⟨100, 50, "RGB", Pix.src 0⟩ 300 (by decide) (by decide)
    (by decide)

/-- C2: with positive dimensions and `width > max_width`, `resize_image`
returns width `max_width` and height `⌊height * max_width / width⌋`
(truncation of the exact proportional value). -/
theorem resize_image_shrink (image : PILImage) (max_width : Nat)
    (hw : 0 < image.width) (hh : 0 < image.height)
    (h : max_width < image.width) :
    (resize_image image max_width).width = max_width ∧
    (resize_image image max_width).height =
      image.height * max_width / image.width := by
  simp [resize_image, Nat.not_le.mpr h]

/-- Witness for C2 at a concrete image. -/
theorem resize_image_shrink_witness :
    (resize_image ⟨2000, 1000, "RGB", Pix.src 0⟩ 300).width = 300 ∧
    (resize_image ⟨2000, 1000, "RGB", Pix.src 0⟩ 300).height =
      1000 * 300 / 2000 :=
  resize_image_shrink ⟨2000, 1000, "RGB", Pix.src 0⟩ 300 (by decide)
    (by decide) (by decide)

/-- Helper: a record whose decoded key is not under `original/` produces
no S3 calls and no error. -/
theorem handleRecord_skip (store : S3Store) (r : S3Record)
    (h : ("original/".data.isPrefixOf (unquote_plus r.objectKeyRaw)) = false) :
    handleRecord store r = ([], none) := by
  simp [handleRecord, handleRecordWith, h]

/-- Helper: the loop over a list of records that are all skipped performs
no S3 calls and raises nothing. -/
theorem runRecords_skip (store : S3Store) (rs : List S3Record)
    (h : ∀ r ∈ rs,
      ("original/".data.isPrefixOf (unquote_plus r.objectKeyRaw)) = false) :
    runRecords store rs = ([], none) := by
  induction rs with
  | nil => rfl
  | cons a as ih =>
    have ha := handleRecord_skip store a (h a (by simp))
    have has := ih (fun r hr => h r (by simp [hr]))
    simp [runRecords, ha, has]

/-- Helper: unfolding of the loop on a non-empty record list. -/
theorem runRecords_cons (store : S3Store) (a : S3Record)
    (as : List S3Record) :
    runRecords store (a :: as) =
      match (handleRecord store a).2 with
      | some e => ((handleRecord store a).1, some e)
      | none => ((handleRecord store a).1 ++ (runRecords store as).1,
          (runRecords store as).2) := rfl

/-- Helper: the loop aborts at the first record whose handling raises,
keeping exactly the calls of the earlier records and of that record. -/
theorem runRecords_append_error (store : S3Store) (rs1 : List S3Record)
    (r : S3Record) (rs2 : List S3Record) (e : PyError)
    (h1 : (runRecords store rs1).2 = none)
    (h2 : (handleRecord store r).2 = some e) :
    runRecords store (rs1 ++ r :: rs2) =
      ((runRecords store rs1).1 ++ (handleRecord store r).1, some e) := by
  induction rs1 with
  | nil => simp [runRecords, h2]
  | cons a as ih =>
    rw [runRecords_cons] at h1
    cases ha : (handleRecord store a).2 with
    | some e2 => rw [ha] at h1; simp at h1
    | none =>
      rw [ha] at h1
      simp only [] at h1
      have := ih h1
      rw [List.cons_append, runRecords_cons, ha, runRecords_cons, ha]
      simp [this]

/-- C4: if the handling of an eligible record raises (fetch or decode
fails) after earlier records succeeded, `lambda_handler` propagates that
error: no success response is returned, and the S3 calls performed are
exactly those of the earlier records plus those of the failing record —
the remaining records of the batch are never processed. -/
theorem first_error_aborts_batch (store : S3Store) (rs1 : List S3Record)
    (r : S3Record) (rs2 : List S3Record) (e : PyError)
    (h1 : (runRecords store rs1).2 = none)
    (h2 : (handleRecord store r).2 = some e) :
    lambda_handler store ⟨rs1 ++ r :: rs2⟩ =
      ((runRecords store rs1).1 ++ (handleRecord store r).1,
        Except.error e) := by
  have h := runRecords_append_error store rs1 r rs2 e h1 h2
  simp [lambda_handler, h]

/-- A bucket holding one eligible object whose bytes Pillow cannot
decode. -/
def storeBad : S3Store := fun b k =>
  if b = "bucket" ∧ k = "original/bad.jpg".data then
    some (S3Body.bytes none)
  else none

/-- The notification for the undecodable object. -/
def recBad : S3Record := ⟨"bucket", "original/bad.jpg".data⟩

/-- A further eligible notification in the same batch. -/
def recAfter : S3Record := ⟨"bucket", "original/next.jpg".data⟩

/-- Witness for C4: with the undecodable object first, the invocation
errors and never touches the second record. -/
theorem first_error_aborts_batch_witness :
    lambda_handler storeBad ⟨[recBad, recAfter]⟩ =
      ((runRecords storeBad []).1 ++ (handleRecord storeBad recBad).1,
        Except.error (PyError.imageOpenError "bucket"
          "original/bad.jpg".data)) :=
  first_error_aborts_batch storeBad [] recBad [recAfter] _ (by decide)
    (by decide)

/-- C3 counterexample: a batch whose single notification has key
`thumbnails/foo.jpg` (not under `original/`) performs zero S3 calls, yet
the response body reports a processed count of 1, not 0 — the skipped
notification is NOT excluded from the count. -/
theorem skipped_record_counted :
    lambda_handler (fun _ _ => none)
        ⟨[⟨"bucket", "thumbnails/foo.jpg".data⟩]⟩ =
      ([], Except.ok ⟨200, "Imagens redimensionadas com sucesso!", 1⟩) := by
  rfl

/-- C3 (amended): a notification whose decoded key is not under
`original/` is skipped with no error and zero S3 calls, but it is still
counted: whenever the handler returns a success response, the processed
count equals the total number of records in the batch, skipped ones
included. -/
theorem skipped_record_zero_writes (store : S3Store) (r : S3Record)
    (h : ("original/".data.isPrefixOf (unquote_plus r.objectKeyRaw)) = false) :
    handleRecord store r = ([], none) ∧
    ∀ (event : S3Event) (resp : LambdaResponse),
      (lambda_handler store event).2 = Except.ok resp →
      resp.processed_files = event.records.length := by
  refine ⟨handleRecord_skip store r h, ?_⟩
  intro event resp hok
  cases hrun : (runRecords store event.records).2 with
  | some e => simp [lambda_handler, hrun] at hok
  | none =>
    simp [lambda_handler, hrun] at hok
    subst hok
    rfl

/-- Witness for C3's amended statement. -/
theorem skipped_record_zero_writes_witness :
    handleRecord (fun _ _ => none) ⟨"bucket", "thumbnails/foo.jpg".data⟩ =
      ([], none) :=
  (skipped_record_zero_writes (fun _ _ => none)
    ⟨"bucket", "thumbnails/foo.jpg".data⟩ (by decide)).1

/-- Helper: truncating division undershoots by less than one divisor. -/
theorem lt_div_succ_mul (a b : Nat) (hb : 0 < b) : a < (a / b + 1) * b := by
  have h2 := Nat.mod_lt a hb
  calc a = b * (a / b) + a % b := (Nat.div_add_mod a b).symm
    _ < b * (a / b) + b := Nat.add_lt_add_left h2 _
    _ = (a / b + 1) * b := by ring

/-- Helper: `resize_image` never yields a width above `max_width`. -/
theorem resize_image_width_le (image : PILImage) (mw : Nat) :
    (resize_image image mw).width ≤ mw := by
  unfold resize_image
  split
  · assumption
  · exact Nat.le_refl mw

/-- Helper: `resize_image` preserves the aspect ratio up to truncation:
the output height is the floor of the exact proportional height. -/
theorem resize_image_ratio (image : PILImage) (mw : Nat)
    (hw : 0 < image.width) :
    (resize_image image mw).height * image.width ≤
      image.height * (resize_image image mw).width ∧
    image.height * (resize_image image mw).width <
      ((resize_image image mw).height + 1) * image.width := by
  unfold resize_image
  split
  · exact ⟨Nat.le_refl _, by
      have := Nat.lt_succ_self image.height
      exact Nat.mul_lt_mul_of_lt_of_le this (Nat.le_refl _) hw⟩
  · refine ⟨Nat.div_mul_le_self _ _, ?_⟩
    exact lt_div_succ_mul (image.height * mw) image.width hw

/-- Helper: below the width bound, `resize_image` keeps the dimensions. -/
theorem resize_image_dims_of_le (image : PILImage) (mw : Nat)
    (h : image.width ≤ mw) :
    (resize_image image mw).width = image.width ∧
    (resize_image image mw).height = image.height := by
  simp [resize_image, h]

/-- Helper: the RGB normalization step keeps the dimensions. -/
theorem convert_step_dims (image : PILImage) :
    (if image.mode ≠ "RGB" then convertRGB image else image).width =
      image.width ∧
    (if image.mode ≠ "RGB" then convertRGB image else image).height =
      image.height := by
  split <;> simp [convertRGB]

/-- Helper: on an eligible record whose object is fetched and decoded,
the loop body performs one get followed by one put per size profile, in
profile order, and raises nothing. -/
theorem handleRecordWith_eligible (sizes : List (String × Nat))
    (store : S3Store) (r : S3Record) (body : S3Body) (opened : PILImage)
    (helig : ("original/".data.isPrefixOf (unquote_plus r.objectKeyRaw)) = true)
    (hget : store r.bucketName (unquote_plus r.objectKeyRaw) = some body)
    (hopen : imageOpen body = some opened) :
    handleRecordWith sizes store r =
      (S3Call.get r.bucketName (unquote_plus r.objectKeyRaw) ::
        sizes.map (fun sz =>
          S3Call.put r.bucketName
            (sz.1.data ++ '/' :: basename (unquote_plus r.objectKeyRaw))
            (S3Body.jpegEncoded
              (resize_image
                (if opened.mode ≠ "RGB" then convertRGB opened else opened)
                sz.2) 85)
            "image/jpeg"),
       none) := by
  simp [handleRecordWith, helig, hget, hopen]

/-- C5: for an eligible notification whose object is fetched and decoded,
one object is stored per configured size profile, at destination key
`{profileName}/{basename(decodedKey)}` (directory path stripped), as JPEG
at quality 85 with content type `image/jpeg`; the destination keys of the
profiles are pairwise distinct, so exactly one object goes to each. -/
theorem eligible_record_stores_each_profile (store : S3Store)
    (r : S3Record) (body : S3Body) (opened : PILImage)
    (helig : ("original/".data.isPrefixOf (unquote_plus r.objectKeyRaw)) = true)
    (hget : store r.bucketName (unquote_plus r.objectKeyRaw) = some body)
    (hopen : imageOpen body = some opened) :
    handleRecord store r =
      (S3Call.get r.bucketName (unquote_plus r.objectKeyRaw) ::
        SIZES.map (fun sz =>
          S3Call.put r.bucketName
            (sz.1.data ++ '/' :: basename (unquote_plus r.objectKeyRaw))
            (S3Body.jpegEncoded
              (resize_image
                (if opened.mode ≠ "RGB" then convertRGB opened else opened)
                sz.2) 85)
            "image/jpeg"),
       none) ∧
    (SIZES.map (fun sz =>
      sz.1.data ++ '/' :: basename (unquote_plus r.objectKeyRaw))).Nodup := by
  refine ⟨handleRecordWith_eligible SIZES store r body opened helig hget
    hopen, ?_⟩
  simp [SIZES]

/-- The decoded source image used by the concrete end-to-end runs. -/
def photoImg : PILImage := ⟨2000, 1000, "RGB", Pix.src 0⟩

/-- The notification for the concrete end-to-end runs. -/
def recPhoto : S3Record := ⟨"bucket", "original/photo.jpg".data⟩

/-- A bucket holding one decodable 2000x1000 object under `original/`. -/
def storePhoto : S3Store := fun b k =>
  if b = "bucket" ∧ k = "original/photo.jpg".data then
    some (S3Body.bytes (some photoImg))
  else none

/-- Witness for C5 on the concrete 2000x1000 upload. -/
theorem eligible_record_stores_each_profile_witness :
    handleRecord storePhoto recPhoto =
      (S3Call.get recPhoto.bucketName (unquote_plus recPhoto.objectKeyRaw) ::
        SIZES.map (fun sz =>
          S3Call.put recPhoto.bucketName
            (sz.1.data ++ '/' :: basename (unquote_plus recPhoto.objectKeyRaw))
            (S3Body.jpegEncoded
              (resize_image
                (if photoImg.mode ≠ "RGB" then convertRGB photoImg
                 else photoImg) sz.2) 85)
            "image/jpeg"),
       none) ∧
    (SIZES.map (fun sz =>
      sz.1.data ++ '/' :: basename (unquote_plus recPhoto.objectKeyRaw))).Nodup :=
  eligible_record_stores_each_profile storePhoto recPhoto
    (S3Body.bytes (some photoImg)) photoImg (by decide) (by decide) rfl

/-- C6: every variant stored for an eligible notification is a JPEG at
quality 85 for the configured profile its destination key names (the key
equation pins the profile `sz` to the put), with width at most THAT
profile's maxWidth, dimensions preserving the source aspect ratio within
one pixel of truncation, and — when the source is already narrow enough
for that profile — dimensions identical to the source (no upscaling). -/
theorem variant_invariants (store : S3Store) (r : S3Record)
    (body : S3Body) (opened : PILImage)
    (helig : ("original/".data.isPrefixOf (unquote_plus r.objectKeyRaw)) = true)
    (hget : store r.bucketName (unquote_plus r.objectKeyRaw) = some body)
    (hopen : imageOpen body = some opened)
    (hw : 0 < opened.width) :
    ∀ c ∈ (handleRecord store r).1, ∀ b k bd ct,
      c = S3Call.put b k bd ct →
      ∃ sz ∈ SIZES, ∃ v : PILImage,
        k = sz.1.data ++ '/' :: basename (unquote_plus r.objectKeyRaw) ∧
        bd = S3Body.jpegEncoded v 85 ∧
        v.width ≤ sz.2 ∧
        v.height * opened.width ≤ opened.height * v.width ∧
        opened.height * v.width < (v.height + 1) * opened.width ∧
        (opened.width ≤ sz.2 →
          v.width = opened.width ∧ v.height = opened.height) := by
  intro c hc b k bd ct hput
  rw [handleRecord,
    handleRecordWith_eligible SIZES store r body opened helig hget hopen]
    at hc
  rcases List.mem_cons.mp hc with hgetc | hmap
  · rw [hput] at hgetc
    exact S3Call.noConfusion hgetc
  · obtain ⟨sz, hsz, heq⟩ := List.mem_map.mp hmap
    rw [hput] at heq
    injection heq with hb hk hbd hct
    obtain ⟨hcw, hch⟩ := convert_step_dims opened
    refine ⟨sz, hsz,
      resize_image (if opened.mode ≠ "RGB" then convertRGB opened
        else opened) sz.2, hk.symm, hbd.symm, ?_, ?_, ?_, ?_⟩
    · exact resize_image_width_le _ _
    · have h2 := (resize_image_ratio
        (if opened.mode ≠ "RGB" then convertRGB opened else opened) sz.2
        (by rw [hcw]; exact hw)).1
      rw [hcw, hch] at h2
      exact h2
    · have h2 := (resize_image_ratio
        (if opened.mode ≠ "RGB" then convertRGB opened else opened) sz.2
        (by rw [hcw]; exact hw)).2
      rw [hcw, hch] at h2
      exact h2
    · intro hle
      have h2 := resize_image_dims_of_le
        (if opened.mode ≠ "RGB" then convertRGB opened else opened) sz.2
        (by rw [hcw]; exact hle)
      rw [hcw, hch] at h2
      exact h2

/-- Witness for C6 on the concrete 2000x1000 upload and its `small`
variant. -/
theorem variant_invariants_witness :
    ∃ sz ∈ SIZES, ∃ v : PILImage,
      "small/photo.jpg".data =
        sz.1.data ++ '/' :: basename (unquote_plus recPhoto.objectKeyRaw) ∧
      S3Body.jpegEncoded ⟨300, 150, "RGB", Pix.lanczos (Pix.src 0) 300 150⟩
          85 = S3Body.jpegEncoded v 85 ∧
      v.width ≤ sz.2 ∧
      v.height * photoImg.width ≤ photoImg.height * v.width ∧
      photoImg.height * v.width < (v.height + 1) * photoImg.width ∧
      (photoImg.width ≤ sz.2 →
        v.width = photoImg.width ∧ v.height = photoImg.height) :=
  variant_invariants storePhoto recPhoto (S3Body.bytes (some photoImg))
    photoImg (by decide) (by decide) rfl (by decide)
    (S3Call.put "bucket" "small/photo.jpg".data
      (S3Body.jpegEncoded ⟨300, 150, "RGB", Pix.lanczos (Pix.src 0) 300 150⟩
        85) "image/jpeg")
    (by decide) "bucket" "small/photo.jpg".data
    (S3Body.jpegEncoded ⟨300, 150, "RGB", Pix.lanczos (Pix.src 0) 300 150⟩
      85) "image/jpeg" rfl

/-- C10: a batch with no records, or whose records all have decoded keys
outside `original/`, performs no S3 calls at all and still returns
status 200 with a processed count equal to the total number of records
(0 for the empty batch). -/
theorem ineligible_batch_no_calls (store : S3Store) (event : S3Event)
    (h : ∀ r ∈ event.records,
      ("original/".data.isPrefixOf (unquote_plus r.objectKeyRaw)) = false) :
    lambda_handler store event =
      ([], Except.ok ⟨200, "Imagens redimensionadas com sucesso!",
        event.records.length⟩) := by
  simp [lambda_handler, runRecords_skip store event.records h]

/-- Witness for C10, on both the empty batch and a batch with one
ineligible record. -/
theorem ineligible_batch_no_calls_witness :
    lambda_handler (fun _ _ => none) ⟨[]⟩ =
      ([], Except.ok ⟨200, "Imagens redimensionadas com sucesso!", 0⟩) ∧
    lambda_handler (fun _ _ => none)
        ⟨[⟨"bucket", "thumbnails/foo.jpg".data⟩]⟩ =
      ([], Except.ok ⟨200, "Imagens redimensionadas com sucesso!", 1⟩) :=
  ⟨ineligible_batch_no_calls (fun _ _ => none) ⟨[]⟩ (by decide),
   ineligible_batch_no_calls (fun _ _ => none)
     ⟨[⟨"bucket", "thumbnails/foo.jpg".data⟩]⟩ (by decide)⟩

/-- C7: end-to-end on a single notification for `original/photo.jpg`
sized 2000x1000 with profiles small:300 and medium:800 — one fetch, then
`small/photo.jpg` at 300x150 and `medium/photo.jpg` at 800x400, both
re-encoded as JPEG quality 85, and a 200 response reporting 1 processed
file. -/
theorem end_to_end_photo :
    lambda_handler storePhoto ⟨[recPhoto]⟩ =
      ([S3Call.get "bucket" "original/photo.jpg".data,
        S3Call.put "bucket" "small/photo.jpg".data
          (S3Body.jpegEncoded ⟨300, 150, "RGB", Pix.lanczos (Pix.src 0) 300 150⟩
            85) "image/jpeg",
        S3Call.put "bucket" "medium/photo.jpg".data
          (S3Body.jpegEncoded ⟨800, 400, "RGB", Pix.lanczos (Pix.src 0) 800 400⟩
            85) "image/jpeg"],
       Except.ok ⟨200, "Imagens redimensionadas com sucesso!", 1⟩) := by
  rfl

/-- C8: for one notification, processing the size profiles in any other
order yields the same multiset of S3 calls (same destination keys, bodies
and content types) and the same error outcome: each profile's variant
depends only on the decoded source and that profile. -/
theorem profile_order_irrelevant (sizes1 sizes2 : List (String × Nat))
    (store : S3Store) (r : S3Record) (hperm : sizes1.Perm sizes2) :
    (handleRecordWith sizes1 store r).1.Perm
      (handleRecordWith sizes2 store r).1 ∧
    (handleRecordWith sizes1 store r).2 =
      (handleRecordWith sizes2 store r).2 := by
  simp only [handleRecordWith]
  split
  · exact ⟨List.Perm.refl _, rfl⟩
  · split
    · exact ⟨List.Perm.refl _, rfl⟩
    · split
      · exact ⟨List.Perm.refl _, rfl⟩
      · exact ⟨List.Perm.cons _ (hperm.map _), rfl⟩

/-- Witness for C8: the two profiles in swapped order. -/
theorem profile_order_irrelevant_witness :
    (handleRecordWith [("medium", 800), ("small", 300)] storePhoto
      recPhoto).1.Perm (handleRecordWith SIZES storePhoto recPhoto).1 ∧
    (handleRecordWith [("medium", 800), ("small", 300)] storePhoto
      recPhoto).2 = (handleRecordWith SIZES storePhoto recPhoto).2 :=
  profile_order_irrelevant [("medium", 800), ("small", 300)] SIZES
    storePhoto recPhoto (by decide)

/-- Helper: the call trace of `lambda_handler` is the loop's call trace,
whether or not the loop raised. -/
theorem lambda_handler_calls (store : S3Store) (event : S3Event) :
    (lambda_handler store event).1 = (runRecords store event.records).1 := by
  simp only [lambda_handler]
  split <;> rfl

/-- Helper: every call of the loop's trace comes from handling one of the
records. -/
theorem runRecords_mem_calls (store : S3Store) (rs : List S3Record)
    (c : S3Call) (h : c ∈ (runRecords store rs).1) :
    ∃ r ∈ rs, c ∈ (handleRecord store r).1 := by
  induction rs with
  | nil => simp [runRecords] at h
  | cons a as ih =>
    rw [runRecords_cons] at h
    cases ha : (handleRecord store a).2 with
    | some e =>
      rw [ha] at h
      exact ⟨a, by simp, h⟩
    | none =>
      rw [ha] at h
      simp only [List.mem_append] at h
      rcases h with h | h
      · exact ⟨a, by simp, h⟩
      · obtain ⟨r, hr, hc⟩ := ih h
        exact ⟨r, by simp [hr], hc⟩

/-- Helper: any put performed while handling a record goes to that
record's bucket, at key `{profileName}/{basename}` for some configured
profile. -/
theorem handleRecord_put_shape (store : S3Store) (r : S3Record)
    (b : String) (k : List Char) (bd : S3Body) (ct : String)
    (hmem : S3Call.put b k bd ct ∈ (handleRecord store r).1) :
    b = r.bucketName ∧
    ∃ sz ∈ SIZES,
      k = sz.1.data ++ '/' :: basename (unquote_plus r.objectKeyRaw) := by
  rw [handleRecord] at hmem
  simp only [handleRecordWith] at hmem
  split at hmem
  · simp at hmem
  · split at hmem
    · simp at hmem
    · split at hmem
      · simp at hmem
      · simp only [List.mem_cons] at hmem
        rcases hmem with hgetc | hmap
        · exact absurd hgetc (by simp)
        · obtain ⟨sz, hsz, heq⟩ := List.mem_map.mp hmap
          injection heq with hb hk hbd hct
          exact ⟨hb.symm, sz, hsz, hk.symm⟩

/-- C9: every object the handler writes, in any invocation, arises from
handling one particular record of the batch, and goes to THAT record's
bucket (the container the notification came from), at that record's
derived key `{profileName}/{basename}` — which starts with a configured
profile name (`small/` or `medium/`) and never with `original/`, so the
inbox prefix is left untouched. -/
theorem puts_frame (store : S3Store) (event : S3Event) :
    ∀ b k bd ct, S3Call.put b k bd ct ∈ (lambda_handler store event).1 →
      ∃ r ∈ event.records,
        S3Call.put b k bd ct ∈ (handleRecord store r).1 ∧
        b = r.bucketName ∧
        ∃ sz ∈ SIZES,
          k = sz.1.data ++ '/' :: basename (unquote_plus r.objectKeyRaw) ∧
          ((sz.1.data ++ ['/']).isPrefixOf k) = true ∧
          ("original/".data.isPrefixOf k) = false := by
  intro b k bd ct hmem
  rw [lambda_handler_calls] at hmem
  obtain ⟨r, hr, hc⟩ := runRecords_mem_calls store event.records _ hmem
  obtain ⟨hb, sz, hsz, hk⟩ := handleRecord_put_shape store r b k bd ct hc
  refine ⟨r, hr, hc, hb, sz, hsz, hk, ?_, ?_⟩
  · rw [hk]
    exact List.isPrefixOf_iff_prefix.mpr
      ⟨basename (unquote_plus r.objectKeyRaw), by simp⟩
  · rw [hk]
    simp only [SIZES, List.mem_cons, List.not_mem_nil, or_false] at hsz
    rcases hsz with hsz | hsz <;> rw [hsz]
    · rfl
    · rfl

/-- Witness for C9 at the `small` variant of the concrete run. -/
theorem puts_frame_witness :
    ∃ r ∈ (S3Event.mk [recPhoto]).records,
      S3Call.put "bucket" "small/photo.jpg".data
          (S3Body.jpegEncoded
            ⟨300, 150, "RGB", Pix.lanczos (Pix.src 0) 300 150⟩ 85)
          "image/jpeg" ∈ (handleRecord storePhoto r).1 ∧
      "bucket" = r.bucketName ∧
      ∃ sz ∈ SIZES,
        "small/photo.jpg".data =
          sz.1.data ++ '/' :: basename (unquote_plus r.objectKeyRaw) ∧
        ((sz.1.data ++ ['/']).isPrefixOf "small/photo.jpg".data) = true ∧
        ("original/".data.isPrefixOf "small/photo.jpg".data) = false :=
  puts_frame storePhoto ⟨[recPhoto]⟩ "bucket" "small/photo.jpg".data
    (S3Body.jpegEncoded ⟨300, 150, "RGB", Pix.lanczos (Pix.src 0) 300 150⟩
      85) "image/jpeg" (by decide)
